import Mathlib

/-!
Verification of the 1D molecular-chain library (parser, dynamical-matrix
builder, symbolic and numeric eigensolvers).

Shallow embedding conventions:
* Python dictionaries (`mass_dict`, `spring_dict`) become functions
  `Char → Option ℚ`; the membership test `c in d` becomes `(d c).isSome`.
* Sympy symbols / numpy floats both become `ℚ`: every identity proved is a
  field identity, so it holds verbatim for symbolic expressions, and exactly
  (no rounding) for the numeric path.
* The mutating loop of `build_matrix` becomes a fold over `List.range N`
  updating a matrix represented as `ℕ → ℕ → ℚ`.
* Runtime failures of the Python dict/array lookups (KeyError, IndexError)
  are modelled by an `Except` variant of `build_matrix`.
* Python's `str.isalpha` is modelled by `Char.isAlpha` (the inputs in this
  repository are ASCII).
-/

/-- Functional update of one cell of a matrix represented as `ℕ → ℕ → ℚ`:
the embedding of the assignment `A[r, c] = v`. -/
def matSet (A : ℕ → ℕ → ℚ) (r c : ℕ) (v : ℚ) : ℕ → ℕ → ℚ :=
  fun i j => if i = r ∧ j = c then v else A i j

namespace SymbolicMolecularChain

/-- Embedding of `SymbolicMolecularChain._parse_structure`: scan left to
right; an alphabetic character is appended as an atom; if the following
character is a key of `spring_dict` it is appended as a bond and the scan
advances two positions, otherwise one; any other character is skipped. -/
def parse_structure (spring : Char → Option ℚ) : List Char → List Char × List Char
  | [] => ([], [])
  | c :: rest =>
    if c.isAlpha then
      match rest with
      | [] => ([c], [])
      | b :: rest2 =>
        if (spring b).isSome then
          (c :: (parse_structure spring rest2).1, b :: (parse_structure spring rest2).2)
        else
          (c :: (parse_structure spring (b :: rest2)).1, (parse_structure spring (b :: rest2)).2)
    else
      parse_structure spring rest

/-- One iteration of the `for i in range(self.N)` loop of
`SymbolicMolecularChain.build_matrix`: performs, in order, the mutations
`A[i, i-1] = -k[i-1]/m[i]`, `A[i, i] += k[i-1]/m[i]` (when `i > 0`) and
`A[i, i+1] = -k[i]/m[i]`, `A[i, i] += k[i]/m[i]` (when `i < N-1`). -/
def buildRow (m k : List ℚ) (N : ℕ) (A : ℕ → ℕ → ℚ) (i : ℕ) : ℕ → ℕ → ℚ :=
  let A1 :=
    if 0 < i then
      let B := matSet A i (i - 1) (-(k.getD (i - 1) 0) / m.getD i 0)
      matSet B i i (B i i + k.getD (i - 1) 0 / m.getD i 0)
    else A
  if i < N - 1 then
    let B := matSet A1 i (i + 1) (-(k.getD i 0) / m.getD i 0)
    matSet B i i (B i i + k.getD i 0 / m.getD i 0)
  else A1

/-- Embedding of `SymbolicMolecularChain.build_matrix`, given the already
looked-up mass list `m` (one entry per atom, `N = len(m)`) and spring list
`k`: fold the row loop over `A = sp.zeros(N)`. -/
def build_matrix (m k : List ℚ) : ℕ → ℕ → ℚ :=
  (List.range m.length).foldl (buildRow m k m.length) (fun _ _ => 0)

/-- The composition `__init__` + `build_matrix` of `SymbolicMolecularChain`:
parse the structure string, look the atoms up in `mass_dict` and the bonds
up in `spring_dict`, and build the matrix. -/
def chain_matrix (mass spring : Char → Option ℚ) (s : List Char) : ℕ → ℕ → ℚ :=
  let p := parse_structure spring s
  build_matrix (p.1.map fun a => (mass a).getD 0) (p.2.map fun b => (spring b).getD 0)

end SymbolicMolecularChain

namespace SymbolicEigenSolver

/-- Embedding of `SymbolicEigenSolver.characteristic_polynomial`:
`(self.matrix - lambda * sp.eye(N)).det()`, evaluated at a value `lam`
(the sympy symbol `lambda` becomes a universally quantified rational). -/
def characteristic_polynomial {n : ℕ} (A : Matrix (Fin n) (Fin n) ℚ) (lam : ℚ) : ℚ :=
  (A - lam • (1 : Matrix (Fin n) (Fin n) ℚ)).det

end SymbolicEigenSolver

namespace MolecularChainNumeric

/-- Embedding of `MolecularChainNumeric._parse_structure` (the code is a
verbatim copy of the symbolic class's parser). -/
def parse_structure (spring : Char → Option ℚ) : List Char → List Char × List Char
  | [] => ([], [])
  | c :: rest =>
    if c.isAlpha then
      match rest with
      | [] => ([c], [])
      | b :: rest2 =>
        if (spring b).isSome then
          (c :: (parse_structure spring rest2).1, b :: (parse_structure spring rest2).2)
        else
          (c :: (parse_structure spring (b :: rest2)).1, (parse_structure spring (b :: rest2)).2)
    else
      parse_structure spring rest

/-- One iteration of the row loop of `MolecularChainNumeric.build_matrix`
(verbatim copy of the symbolic class's loop body, with numpy arithmetic). -/
def buildRow (m k : List ℚ) (N : ℕ) (A : ℕ → ℕ → ℚ) (i : ℕ) : ℕ → ℕ → ℚ :=
  let A1 :=
    if 0 < i then
      let B := matSet A i (i - 1) (-(k.getD (i - 1) 0) / m.getD i 0)
      matSet B i i (B i i + k.getD (i - 1) 0 / m.getD i 0)
    else A
  if i < N - 1 then
    let B := matSet A1 i (i + 1) (-(k.getD i 0) / m.getD i 0)
    matSet B i i (B i i + k.getD i 0 / m.getD i 0)
  else A1

/-- Embedding of `MolecularChainNumeric.build_matrix` over
`A = np.zeros((N, N))`. -/
def build_matrix (m k : List ℚ) : ℕ → ℕ → ℚ :=
  (List.range m.length).foldl (buildRow m k m.length) (fun _ _ => 0)

/-- The composition `__init__` + `build_matrix` of `MolecularChainNumeric`. -/
def chain_matrix (mass spring : Char → Option ℚ) (s : List Char) : ℕ → ℕ → ℚ :=
  let p := parse_structure spring s
  build_matrix (p.1.map fun a => (mass a).getD 0) (p.2.map fun b => (spring b).getD 0)

end MolecularChainNumeric

namespace NumericEigenSolver

/-- The matrix that `np.linalg.eigh(self.matrix)` actually decomposes in
`NumericEigenSolver.solve`: with the default `UPLO='L'`, `eigh` reads only
the lower triangle of its argument and treats the matrix as symmetric, so
the eigenpairs returned are those of this lower-triangle symmetrization. -/
def eighInput (A : ℕ → ℕ → ℚ) : ℕ → ℕ → ℚ :=
  fun i j => if j ≤ i then A i j else A j i

end NumericEigenSolver

/-- The Python runtime errors that the chain classes can actually raise:
a `KeyError` from a dict lookup (carrying the missing key) or an
`IndexError` from an out-of-bounds list/array access. -/
inductive PyError where
  | keyError : Char → PyError
  | indexError : PyError
deriving DecidableEq

/-- Embedding of the list comprehension `[d[x] for x in keys]`: looks each
key up left to right and raises `KeyError` at the first missing one. -/
def lookupMany (d : Char → Option ℚ) : List Char → Except PyError (List ℚ)
  | [] => .ok []
  | c :: cs =>
    match d c with
    | none => .error (.keyError c)
    | some v => (lookupMany d cs).map (fun vs => v :: vs)

/-- Embedding of a Python list/array subscript `l[j]` for `j ≥ 0`:
`IndexError` when out of bounds. -/
def getIdx (l : List ℚ) (j : ℕ) : Except PyError ℚ :=
  if h : j < l.length then .ok (l.get ⟨j, h⟩) else .error .indexError

/-- One iteration of the row loop of `build_matrix` with the Python
subscript errors made explicit (`k[i-1]` and `k[i]` can raise
`IndexError` when fewer bonds than `N - 1` were parsed). -/
def buildRowE (m k : List ℚ) (N : ℕ) (A : ℕ → ℕ → ℚ) (i : ℕ) :
    Except PyError (ℕ → ℕ → ℚ) := do
  let A1 ←
    if 0 < i then do
      let kv ← getIdx k (i - 1)
      let mv ← getIdx m i
      let B := matSet A i (i - 1) (-kv / mv)
      pure (matSet B i i (B i i + kv / mv))
    else pure A
  if i < N - 1 then do
    let kv ← getIdx k i
    let mv ← getIdx m i
    let B := matSet A1 i (i + 1) (-kv / mv)
    pure (matSet B i i (B i i + kv / mv))
  else pure A1

/-- Embedding of `build_matrix` as run by Python on the stored
`self.atoms` / `self.bonds`, with the dict lookups and array subscripts
fallible: `m = [mass_dict[a] for a in atoms]` (KeyError at the first atom
missing from `mass_dict`), `k = [spring_dict[b] for b in bonds]`, then the
row loop (IndexError when `k` is shorter than `N - 1`). -/
def build_matrixE (mass spring : Char → Option ℚ) (atoms bonds : List Char) :
    Except PyError (ℕ → ℕ → ℚ) := do
  let m ← lookupMany mass atoms
  let k ← lookupMany spring bonds
  (List.range atoms.length).foldlM (buildRowE m k atoms.length) (fun _ _ => 0)

/-- The closed form of the entries produced by the `build_matrix` row loop
(used to state and prove facts about the fold). -/
def buildEntry (m k : List ℚ) (N i j : ℕ) : ℚ :=
  if j = i then
    (if 0 < i then k.getD (i - 1) 0 / m.getD i 0 else 0) +
      (if i < N - 1 then k.getD i 0 / m.getD i 0 else 0)
  else if 0 < i ∧ j = i - 1 then -(k.getD (i - 1) 0) / m.getD i 0
  else if i < N - 1 ∧ j = i + 1 then -(k.getD i 0) / m.getD i 0
  else 0

/-- The string interleaving `a₀ b₀ a₁ b₁ … a_{n-1}` of an atom list with a
bond list: the shape of a structure string that is valid per the external
interface (first and last characters atoms, exactly one bond character
between consecutive atoms). -/
def chainInterleave : List Char → List Char → List Char
  | [], _ => []
  | a :: _, [] => [a]
  | a :: atoms, b :: bonds => a :: b :: chainInterleave atoms bonds

/-- The mass dictionary `{'O': m, 'C': M}` of the notebook's examples. -/
def co2_mass (m M : ℚ) : Char → Option ℚ :=
  fun c => if c = 'O' then some m else if c = 'C' then some M else none

/-- The spring dictionary `{'=': k}`. -/
def co2_spring (k : ℚ) : Char → Option ℚ :=
  fun c => if c = '=' then some k else none

/-- A spring dictionary `{'-': K}` keyed by the single-bond character. -/
def dash_spring (K : ℚ) : Char → Option ℚ :=
  fun c => if c = '-' then some K else none

/-- The `3×3` matrix the symbolic pipeline builds for the structure string
`"O=C=O"` with masses `{O: m, C: M}` and springs `{'=': k}`, viewed over
`Fin 3` so the eigensolver's determinant applies. -/
def co2A (m M k : ℚ) : Matrix (Fin 3) (Fin 3) ℚ :=
  Matrix.of fun i j : Fin 3 =>
    SymbolicMolecularChain.chain_matrix (co2_mass m M) (co2_spring k) "O=C=O".toList i j

/-- The row loop iteration leaves every row other than `i` unchanged. -/
lemma buildRow_ne (m k : List ℚ) (N : ℕ) (A : ℕ → ℕ → ℚ) (i r c : ℕ) (h : r ≠ i) :
    SymbolicMolecularChain.buildRow m k N A i r c = A r c := by
  have e : ∀ (B : ℕ → ℕ → ℚ) c0 v, matSet B i c0 v r c = B r c := by
    intro B c0 v
    simp [matSet, h]
  simp only [SymbolicMolecularChain.buildRow, ite_apply, e, ite_self]

/-- On a row that is still all zero, the row loop iteration writes exactly
the closed-form entries. -/
lemma buildRow_diag (m k : List ℚ) (N : ℕ) (A : ℕ → ℕ → ℚ) (i : ℕ)
    (h0 : ∀ c, A i c = 0) (j : ℕ) :
    SymbolicMolecularChain.buildRow m k N A i i j = buildEntry m k N i j := by
  have e : ∀ (B : ℕ → ℕ → ℚ) c0 v j2, matSet B i c0 v i j2 = if j2 = c0 then v else B i j2 := by
    intro B c0 v j2
    simp [matSet]
  simp only [SymbolicMolecularChain.buildRow, buildEntry, ite_apply, e, h0]
  split_ifs <;> first | rfl | (exfalso; omega) | ring1

/-- Closed form of the partial fold of the row loop: after the first `n`
iterations, rows `< n` hold their final entries and rows `≥ n` are zero. -/
lemma build_fold (m k : List ℚ) (N n : ℕ) :
    (List.range n).foldl (SymbolicMolecularChain.buildRow m k N) (fun _ _ => 0) =
      fun i j => if i < n then buildEntry m k N i j else 0 := by
  induction n with
  | zero => funext i j; simp
  | succ n ih =>
      rw [List.range_succ, List.foldl_append, ih]
      simp only [List.foldl_cons, List.foldl_nil]
      funext i j
      by_cases hin : i = n
      · subst hin
        rw [buildRow_diag m k N _ i (fun c => by simp)]
        simp
      · rw [buildRow_ne m k N _ n i j hin]
        by_cases h3 : i < n
        · simp [h3, show i < n + 1 by omega]
        · simp [h3, show ¬ i < n + 1 by omega]

/-- Closed form of `build_matrix`: entry `(i, j)` of the built matrix. -/
lemma build_matrix_eq (m k : List ℚ) (i j : ℕ) :
    SymbolicMolecularChain.build_matrix m k i j =
      if i < m.length then buildEntry m k m.length i j else 0 := by
  have h := build_fold m k m.length m.length
  simp only [SymbolicMolecularChain.build_matrix, h]

/-- The two classes' parsers are the same function (the Python code of
`_parse_structure` is duplicated verbatim between them). -/
lemma parse_agree (spring : Char → Option ℚ) (s : List Char) :
    MolecularChainNumeric.parse_structure spring s =
      SymbolicMolecularChain.parse_structure spring s := by
  induction s using SymbolicMolecularChain.parse_structure.induct spring with
  | case1 => rfl
  | case2 c ha =>
      simp [SymbolicMolecularChain.parse_structure, MolecularChainNumeric.parse_structure, ha]
  | case3 c ha b rest2 hb ih =>
      simp [SymbolicMolecularChain.parse_structure, MolecularChainNumeric.parse_structure,
        ha, hb, ih]
  | case4 c ha b rest2 hb ih =>
      simp [SymbolicMolecularChain.parse_structure, MolecularChainNumeric.parse_structure,
        ha, hb, ih]
  | case5 c rest ha ih =>
      cases rest <;>
        simp_all [SymbolicMolecularChain.parse_structure, MolecularChainNumeric.parse_structure]

/-- The two classes' matrix builders are the same function. -/
lemma build_agree : MolecularChainNumeric.build_matrix = SymbolicMolecularChain.build_matrix :=
  rfl

/-- An in-bounds `getD` returns an element of the list. -/
lemma getD_mem (l : List ℚ) (i : ℕ) (h : i < l.length) : l.getD i 0 ∈ l := by
  induction l generalizing i with
  | nil => simp at h
  | cons x xs ih =>
      cases i with
      | zero => simp [List.getD_cons_zero]
      | succ n =>
          simp only [List.getD_cons_succ]
          exact List.mem_cons_of_mem _ (ih n (by simpa using h))

/-- C1: for a parsed chain with atom masses `m₀..m_{N-1}` and bond spring
constants `k₀..k_{N-2}`, `build_matrix` (in both the symbolic and the
numeric class) returns the `N×N` matrix with
`A[i,i] = (k_{i-1}/m_i if i>0) + (k_i/m_i if i<N-1)`,
`A[i,i-1] = -k_{i-1}/m_i` for `i>0`, `A[i,i+1] = -k_i/m_i` for `i<N-1`,
and every other entry zero. -/
theorem C1_build_matrix_entries (m k : List ℚ) (_hk : k.length + 1 = m.length)
    (i j : ℕ) (hi : i < m.length) (hj : j < m.length) :
    MolecularChainNumeric.build_matrix m k i j = SymbolicMolecularChain.build_matrix m k i j ∧
    (j = i →
      SymbolicMolecularChain.build_matrix m k i j =
        (if 0 < i then k.getD (i - 1) 0 / m.getD i 0 else 0) +
          (if i < m.length - 1 then k.getD i 0 / m.getD i 0 else 0)) ∧
    (0 < i → j = i - 1 →
      SymbolicMolecularChain.build_matrix m k i j = -(k.getD (i - 1) 0 / m.getD i 0)) ∧
    (i < m.length - 1 → j = i + 1 →
      SymbolicMolecularChain.build_matrix m k i j = -(k.getD i 0 / m.getD i 0)) ∧
    (j ≠ i → ¬(0 < i ∧ j = i - 1) → ¬(i < m.length - 1 ∧ j = i + 1) →
      SymbolicMolecularChain.build_matrix m k i j = 0) := by
  refine ⟨by rw [build_agree], ?_, ?_, ?_, ?_⟩
  · intro h1
    subst h1
    rw [build_matrix_eq, if_pos hi]
    simp [buildEntry]
  · intro h0 h1
    subst h1
    rw [build_matrix_eq, if_pos hi]
    have hne : ¬ (i - 1 = i) := by omega
    simp [buildEntry, hne, h0, neg_div]
  · intro hN h1
    subst h1
    rw [build_matrix_eq, if_pos hi]
    have hne : ¬ (i + 1 = i) := by omega
    have h2 : ¬ (0 < i ∧ i + 1 = i - 1) := by omega
    simp [buildEntry, hne, h2, hN, neg_div]
  · intro h1 h2 h3
    rw [build_matrix_eq, if_pos hi]
    simp [buildEntry, h1, h2, h3]

/-- Witness for C1 at the concrete chain `m = [2, 3]`, `k = [5]`:
the sub-diagonal entry `A[1,0] = -k₀/m₁ = -5/3`. -/
theorem C1_build_matrix_entries_witness :
    SymbolicMolecularChain.build_matrix [2, 3] [5] 1 0 = -((5 : ℚ) / 3) := by
  have h := (C1_build_matrix_entries [2, 3] [5] (by decide) 1 0 (by decide)
    (by decide)).2.2.1 (by decide) (by decide)
  simpa using h

/-- C4: the parser scans left to right; an alphabetic character is appended
as a new atom; if the next position holds a key of `spring_dict` it is
appended as the bond and the scan advances two positions, otherwise one;
every non-alphabetic character not consumed as a bond is skipped with no
effect on the output; the numeric class's parser behaves identically. -/
theorem C4_parse_structure_step (spring : Char → Option ℚ) :
    (∀ c s, ¬ c.isAlpha →
      SymbolicMolecularChain.parse_structure spring (c :: s) =
        SymbolicMolecularChain.parse_structure spring s) ∧
    (∀ c, c.isAlpha → SymbolicMolecularChain.parse_structure spring [c] = ([c], [])) ∧
    (∀ c b s, c.isAlpha → (spring b).isSome →
      SymbolicMolecularChain.parse_structure spring (c :: b :: s) =
        (c :: (SymbolicMolecularChain.parse_structure spring s).1,
          b :: (SymbolicMolecularChain.parse_structure spring s).2)) ∧
    (∀ c b s, c.isAlpha → ¬ (spring b).isSome →
      SymbolicMolecularChain.parse_structure spring (c :: b :: s) =
        (c :: (SymbolicMolecularChain.parse_structure spring (b :: s)).1,
          (SymbolicMolecularChain.parse_structure spring (b :: s)).2)) ∧
    (∀ s, MolecularChainNumeric.parse_structure spring s =
      SymbolicMolecularChain.parse_structure spring s) := by
  refine ⟨?_, ?_, ?_, ?_, parse_agree spring⟩
  · intro c s h
    cases s <;> simp [SymbolicMolecularChain.parse_structure, h]
  · intro c h
    simp [SymbolicMolecularChain.parse_structure, h]
  · intro c b s h hb
    simp [SymbolicMolecularChain.parse_structure, h, hb]
  · intro c b s h hb
    simp [SymbolicMolecularChain.parse_structure, h, hb]

/-- Witness for C4 at the concrete input `"O=C"` with springs `{'=': 1}`. -/
theorem C4_parse_structure_step_witness :
    SymbolicMolecularChain.parse_structure (co2_spring 1) ['O', '=', 'C'] =
      (['O', 'C'], ['=']) := by
  have h := (C4_parse_structure_step (co2_spring 1)).2.2.1 'O' '=' ['C']
    (by decide) (by decide)
  rw [h]
  decide

/-- C8 counterexample: the malformed structure strings of the claim — the
empty string, a string starting with a bond symbol and a string ending with
a bond symbol — are all accepted by the parser, which returns a (partial)
result instead of raising a `ParseError`; in the trailing-bond case the
returned bond list is even as long as the atom list. -/
theorem C8_counterexample :
    SymbolicMolecularChain.parse_structure (co2_spring 1) [] = ([], []) ∧
    SymbolicMolecularChain.parse_structure (co2_spring 1) ['=', 'O'] = (['O'], []) ∧
    SymbolicMolecularChain.parse_structure (co2_spring 1) ['O', '='] = (['O'], ['=']) := by
  refine ⟨rfl, ?_, ?_⟩ <;> decide

/-- C8 amended: the parser has no error path at all — it is a total
function.  The empty string parses to `([], [])`; a leading bond (or any
non-alphabetic) character is silently skipped; a trailing bond symbol is
recorded as an extra bond, so a bond list as long as the atom list can be
returned.  No exception is raised and the (partial) lists are returned to
the caller. -/
theorem C8_amended (spring : Char → Option ℚ) :
    SymbolicMolecularChain.parse_structure spring [] = ([], []) ∧
    (∀ c s, ¬ c.isAlpha →
      SymbolicMolecularChain.parse_structure spring (c :: s) =
        SymbolicMolecularChain.parse_structure spring s) ∧
    (∀ a b, a.isAlpha → (spring b).isSome →
      SymbolicMolecularChain.parse_structure spring [a, b] = ([a], [b])) := by
  refine ⟨rfl, ?_, ?_⟩
  · intro c s h
    cases s <;> simp [SymbolicMolecularChain.parse_structure, h]
  · intro a b ha hb
    simp [SymbolicMolecularChain.parse_structure, ha, hb]

/-- Witness for C8 (amended) at the concrete input `"N-"` with springs
`{'-': 2}`: the trailing bond is returned, not rejected. -/
theorem C8_amended_witness :
    SymbolicMolecularChain.parse_structure (dash_spring 2) ['N', '-'] = (['N'], ['-']) :=
  (C8_amended (dash_spring 2)).2.2 'N' '-' (by decide) (by decide)

/-- C10: every alphabetic character becomes its own one-character atom —
whenever the spring dictionary's keys are non-alphabetic (as in the
repository, `'='` and `'-'`), the atom list is exactly the sublist of
alphabetic characters, so a two-letter element symbol like `"Cl"` is split
into two atoms; the parser takes no mass dictionary at all, so atom symbols
are never checked against it.  Both classes' parsers agree. -/
theorem C10_atoms_single_chars (spring : Char → Option ℚ)
    (hsp : ∀ c, (spring c).isSome → ¬ c.isAlpha) (s : List Char) :
    (SymbolicMolecularChain.parse_structure spring s).1 = s.filter Char.isAlpha ∧
    (MolecularChainNumeric.parse_structure spring s).1 = s.filter Char.isAlpha := by
  have main : (SymbolicMolecularChain.parse_structure spring s).1 = s.filter Char.isAlpha := by
    induction s using SymbolicMolecularChain.parse_structure.induct spring with
    | case1 => rfl
    | case2 c ha =>
        simp [SymbolicMolecularChain.parse_structure, ha]
    | case3 c ha b rest2 hb ih =>
        have hba := hsp b hb
        simp [SymbolicMolecularChain.parse_structure, ha, hb, ih, hba]
    | case4 c ha b rest2 hb ih =>
        simp [SymbolicMolecularChain.parse_structure, ha, hb, ih]
    | case5 c rest ha ih =>
        cases rest <;> simp_all [SymbolicMolecularChain.parse_structure]
  exact ⟨main, by rw [parse_agree]; exact main⟩

/-- Witness for C10: `"Cl"` parses to the two atoms `['C', 'l']` under the
spring dictionary `{'=': 1}` (no mass dictionary is consulted). -/
theorem C10_atoms_single_chars_witness :
    (SymbolicMolecularChain.parse_structure (co2_spring 1) ['C', 'l']).1 = ['C', 'l'] := by
  have hsp : ∀ c, ((co2_spring 1) c).isSome → ¬ c.isAlpha := by
    intro c hc
    by_cases h : c = '='
    · subst h; decide
    · simp [co2_spring, h] at hc
  have h := (C10_atoms_single_chars (co2_spring 1) hsp ['C', 'l']).1
  rw [h]
  decide

/-- C6: for every structure string that is valid per the external interface
— non-empty, first and last characters atoms (alphabetic), exactly one
recognized bond character between consecutive atoms — the parser returns
exactly those atoms and bonds, and in particular
`len(bonds) = len(atoms) - 1`. -/
theorem C6_valid_chain_lengths (spring : Char → Option ℚ) (atoms bonds : List Char)
    (hne : atoms ≠ []) (hlen : bonds.length + 1 = atoms.length)
    (ha : ∀ a ∈ atoms, a.isAlpha) (hb : ∀ b ∈ bonds, (spring b).isSome) :
    SymbolicMolecularChain.parse_structure spring (chainInterleave atoms bonds) =
      (atoms, bonds) ∧
    (SymbolicMolecularChain.parse_structure spring (chainInterleave atoms bonds)).2.length + 1 =
      (SymbolicMolecularChain.parse_structure spring (chainInterleave atoms bonds)).1.length := by
  have main : SymbolicMolecularChain.parse_structure spring (chainInterleave atoms bonds) =
      (atoms, bonds) := by
    induction bonds generalizing atoms with
    | nil =>
        match atoms, hlen with
        | [a], _ =>
          have haa : a.isAlpha := ha a (by simp)
          simp [chainInterleave, SymbolicMolecularChain.parse_structure, haa]
    | cons b bs ih =>
        match atoms, hlen with
        | a :: a2 :: as2, hlen =>
          have haa : a.isAlpha := ha a (by simp)
          have hbb : (spring b).isSome := hb b (by simp)
          have ih2 := ih (a2 :: as2) (by simp)
            (by simp only [List.length_cons] at hlen ⊢; omega)
            (fun x hx => ha x (by simp_all)) (fun x hx => hb x (by simp_all))
          simp [chainInterleave, SymbolicMolecularChain.parse_structure, haa, hbb, ih2]
  refine ⟨main, ?_⟩
  rw [main]
  simpa using hlen

/-- Witness for C6 at the concrete chain `"O=C"`. -/
theorem C6_valid_chain_lengths_witness :
    SymbolicMolecularChain.parse_structure (co2_spring 1)
        (chainInterleave ['O', 'C'] ['=']) = (['O', 'C'], ['=']) :=
  (C6_valid_chain_lengths (co2_spring 1) ['O', 'C'] ['=']
    (by decide) (by decide) (by decide) (by decide)).1

/-- The closed-form entry decomposed as a sum of three indicator terms
(the three conditions are mutually exclusive). -/
lemma buildEntry_split (m k : List ℚ) (N i j : ℕ) :
    buildEntry m k N i j =
      (if j = i then
        (if 0 < i then k.getD (i - 1) 0 / m.getD i 0 else 0) +
          (if i < N - 1 then k.getD i 0 / m.getD i 0 else 0) else 0) +
      (if 0 < i ∧ j = i - 1 then -(k.getD (i - 1) 0) / m.getD i 0 else 0) +
      (if i < N - 1 ∧ j = i + 1 then -(k.getD i 0) / m.getD i 0 else 0) := by
  simp only [buildEntry]
  split_ifs <;> first | ring1 | (exfalso; omega)

/-- Each row of the closed-form matrix sums to zero. -/
lemma sum_buildEntry (m k : List ℚ) (N i : ℕ) (hi : i < N) :
    ∑ j ∈ Finset.range N, buildEntry m k N i j = 0 := by
  rw [Finset.sum_congr rfl (fun j _ => buildEntry_split m k N i j),
    Finset.sum_add_distrib, Finset.sum_add_distrib]
  have h1 : (∑ j ∈ Finset.range N, (if j = i then
      (if 0 < i then k.getD (i - 1) 0 / m.getD i 0 else 0) +
        (if i < N - 1 then k.getD i 0 / m.getD i 0 else 0) else 0)) =
      (if 0 < i then k.getD (i - 1) 0 / m.getD i 0 else 0) +
        (if i < N - 1 then k.getD i 0 / m.getD i 0 else 0) := by
    rw [Finset.sum_ite_eq' (Finset.range N) i]
    simp [Finset.mem_range, hi]
  have h2 : (∑ j ∈ Finset.range N,
      (if 0 < i ∧ j = i - 1 then -(k.getD (i - 1) 0) / m.getD i 0 else 0)) =
      (if 0 < i then -(k.getD (i - 1) 0) / m.getD i 0 else 0) := by
    by_cases h0 : 0 < i
    · simp only [h0, true_and, if_true]
      rw [Finset.sum_ite_eq' (Finset.range N) (i - 1)]
      simp [Finset.mem_range, (by omega : i - 1 < N)]
    · simp [h0]
  have h3 : (∑ j ∈ Finset.range N,
      (if i < N - 1 ∧ j = i + 1 then -(k.getD i 0) / m.getD i 0 else 0)) =
      (if i < N - 1 then -(k.getD i 0) / m.getD i 0 else 0) := by
    by_cases hN : i < N - 1
    · simp only [hN, true_and, if_true]
      rw [Finset.sum_ite_eq' (Finset.range N) (i + 1)]
      simp [Finset.mem_range, (by omega : i + 1 < N)]
    · simp [hN]
  rw [h1, h2, h3]
  by_cases h0 : 0 < i <;> by_cases hN : i < N - 1 <;>
    simp [h0, hN] <;> ring1

/-- C2: for every chain whose parsed bond list has length `N-1` (and the
positive masses/springs of the data model, here nonzero), each of the `N`
rows of the built matrix sums to zero exactly, the all-ones vector is an
eigenvector with eigenvalue zero (`A · 1 = 0`, the translational mode), and
the off-diagonal nonzero entries are exactly the `N-1` pairs at the
`(i, i+1)` / `(i+1, i)` positions. -/
theorem C2_row_sums_zero_offdiag (m k : List ℚ) (hk : k.length + 1 = m.length)
    (hm : ∀ x ∈ m, x ≠ 0) (hks : ∀ x ∈ k, x ≠ 0) :
    (∀ i < m.length,
      ∑ j ∈ Finset.range m.length, SymbolicMolecularChain.build_matrix m k i j = 0) ∧
    ((Matrix.of fun i j : Fin m.length =>
        SymbolicMolecularChain.build_matrix m k i j).mulVec (fun _ => 1) = 0) ∧
    (∀ i j, i < m.length → j < m.length → i ≠ j →
      (SymbolicMolecularChain.build_matrix m k i j ≠ 0 ↔ (j = i + 1 ∨ i = j + 1))) ∧
    (((Finset.range m.length) ×ˢ (Finset.range m.length)).filter
        (fun p => p.1 < p.2 ∧ SymbolicMolecularChain.build_matrix m k p.1 p.2 ≠ 0)).card =
      m.length - 1 := by
  have hrow : ∀ i, i < m.length →
      ∑ j ∈ Finset.range m.length, SymbolicMolecularChain.build_matrix m k i j = 0 := by
    intro i hi
    have he : ∀ j ∈ Finset.range m.length,
        SymbolicMolecularChain.build_matrix m k i j = buildEntry m k m.length i j := by
      intro j _
      rw [build_matrix_eq, if_pos hi]
    rw [Finset.sum_congr rfl he]
    exact sum_buildEntry m k m.length i hi
  have hoff : ∀ i j, i < m.length → j < m.length → i ≠ j →
      (SymbolicMolecularChain.build_matrix m k i j ≠ 0 ↔ (j = i + 1 ∨ i = j + 1)) := by
    intro i j hi hj hij
    rw [build_matrix_eq, if_pos hi]
    have hji : ¬ (j = i) := fun h => hij h.symm
    constructor
    · intro hne
      by_cases h2 : 0 < i ∧ j = i - 1
      · right; omega
      · by_cases h3 : i < m.length - 1 ∧ j = i + 1
        · left; exact h3.2
        · exfalso
          apply hne
          simp [buildEntry, hji, h2, h3]
    · intro h
      rcases h with h | h
      · subst h
        have hiN : i < m.length - 1 := by omega
        have hne1 : ¬ (i + 1 = i) := by omega
        have hne2 : ¬ (0 < i ∧ i + 1 = i - 1) := by omega
        rw [buildEntry, if_neg hne1, if_neg hne2, if_pos (And.intro hiN rfl)]
        apply div_ne_zero
        · exact neg_ne_zero.mpr (hks _ (getD_mem k i (by omega)))
        · exact hm _ (getD_mem m i hi)
      · subst h
        have h0 : 0 < j + 1 := Nat.succ_pos j
        have hne1 : ¬ (j = j + 1) := by omega
        rw [buildEntry, if_neg hne1, if_pos (And.intro h0 (by omega : j = j + 1 - 1))]
        apply div_ne_zero
        · exact neg_ne_zero.mpr (hks _ (getD_mem k (j + 1 - 1) (by omega)))
        · exact hm _ (getD_mem m (j + 1) hi)
  refine ⟨hrow, ?_, hoff, ?_⟩
  · funext i
    simp only [Matrix.mulVec, Matrix.dotProduct, Matrix.of_apply, mul_one,
      Pi.zero_apply]
    rw [Fin.sum_univ_eq_sum_range (fun jv => SymbolicMolecularChain.build_matrix m k i jv)
      m.length]
    exact hrow i i.isLt
  · have hset : ((Finset.range m.length) ×ˢ (Finset.range m.length)).filter
        (fun p => p.1 < p.2 ∧ SymbolicMolecularChain.build_matrix m k p.1 p.2 ≠ 0) =
        (Finset.range (m.length - 1)).image (fun i => (i, i + 1)) := by
      ext p
      obtain ⟨i, j⟩ := p
      simp only [Finset.mem_filter, Finset.mem_product, Finset.mem_range, Finset.mem_image,
        Prod.mk.injEq]
      constructor
      · rintro ⟨⟨hi, hj⟩, hlt, hne⟩
        rcases (hoff i j hi hj (by omega)).mp hne with h | h
        · exact ⟨i, by omega, rfl, h.symm⟩
        · omega
      · rintro ⟨i0, hi0, rfl, rfl⟩
        refine ⟨⟨by omega, by omega⟩, by omega, ?_⟩
        exact (hoff i0 (i0 + 1) (by omega) (by omega) (by omega)).mpr (Or.inl rfl)
    rw [hset, Finset.card_image_of_injective _ (fun a b h => by
      simpa using congrArg Prod.fst h), Finset.card_range]

/-- Witness for C2 at the concrete chain `m = [2, 3]`, `k = [5]`:
row 0 sums to zero. -/
theorem C2_row_sums_zero_offdiag_witness :
    ∑ j ∈ Finset.range (List.length [(2 : ℚ), 3]),
      SymbolicMolecularChain.build_matrix [2, 3] [5] 0 j = 0 :=
  (C2_row_sums_zero_offdiag [2, 3] [5] (by decide) (by decide) (by decide)).1 0 (by decide)

/-- C3 counterexample: with the positive real masses `m = [2, 3]` and
spring `k = [5]` (structure `"O=C"`), the matrix handed to the numeric
eigensolver is not symmetric: `A[0,1] = -k/m₀ = -5/2` but
`A[1,0] = -k/m₁ = -5/3`. -/
theorem C3_counterexample :
    MolecularChainNumeric.build_matrix [2, 3] [5] 0 1 ≠
      MolecularChainNumeric.build_matrix [2, 3] [5] 1 0 := by
  have h1 : SymbolicMolecularChain.build_matrix [2, 3] [5] 0 1 = -(5 / 2 : ℚ) := by
    rw [build_matrix_eq]
    norm_num [buildEntry]
  have h2 : SymbolicMolecularChain.build_matrix [2, 3] [5] 1 0 = -(5 / 3 : ℚ) := by
    rw [build_matrix_eq]
    norm_num [buildEntry]
  rw [build_agree, h1, h2]
  norm_num

/-- C3 amended: the built matrix divides each spring constant by the mass
of the row's own atom, so it is symmetric only when the masses are all
equal; when the two atoms of a bond have different masses the two opposite
off-diagonal entries differ.  (Both classes build the same matrix.) -/
theorem C3_amended_symmetric_iff_uniform_mass (m k : List ℚ) (c : ℚ)
    (hc : ∀ x ∈ m, x = c) (i j : ℕ) :
    SymbolicMolecularChain.build_matrix m k i j = SymbolicMolecularChain.build_matrix m k j i ∧
    MolecularChainNumeric.build_matrix m k i j = MolecularChainNumeric.build_matrix m k j i := by
  have hmc : ∀ t, t < m.length → m.getD t 0 = c := fun t ht => hc _ (getD_mem m t ht)
  have key : ∀ a b : ℕ, b = a + 1 →
      SymbolicMolecularChain.build_matrix m k a b =
        SymbolicMolecularChain.build_matrix m k b a := by
    intro a b hb
    subst hb
    rw [build_matrix_eq, build_matrix_eq]
    by_cases hA : a + 1 < m.length
    · have ha : a < m.length := by omega
      have haN : a < m.length - 1 := by omega
      have h1 : ¬ (a + 1 = a) := by omega
      have h2 : ¬ (0 < a ∧ a + 1 = a - 1) := by omega
      have h3 : ¬ (a = a + 1) := by omega
      rw [if_pos ha, if_pos hA]
      rw [buildEntry, if_neg h1, if_neg h2, if_pos (And.intro haN rfl)]
      rw [buildEntry, if_neg h3, if_pos (And.intro (Nat.succ_pos a) (by omega : a = a + 1 - 1))]
      rw [Nat.add_sub_cancel, hmc a ha, hmc (a + 1) hA]
    · by_cases ha : a < m.length
      · have h1 : ¬ (a + 1 = a) := by omega
        have h2 : ¬ (0 < a ∧ a + 1 = a - 1) := by omega
        have h3 : ¬ (a < m.length - 1) := by omega
        simp [ha, hA, buildEntry, h1, h2, h3]
      · simp [ha, hA]
  have far : ∀ a b : ℕ, a + 1 < b →
      SymbolicMolecularChain.build_matrix m k a b = 0 ∧
        SymbolicMolecularChain.build_matrix m k b a = 0 := by
    intro a b hab
    constructor <;> rw [build_matrix_eq] <;> split_ifs <;>
      first
        | rfl
        | (simp only [buildEntry]; split_ifs <;> first | rfl | (exfalso; omega))
  rcases Nat.lt_trichotomy i j with h | h | h
  · by_cases hj1 : j = i + 1
    · exact ⟨key i j hj1, by rw [build_agree]; exact key i j hj1⟩
    · have hf := far i j (by omega)
      exact ⟨hf.1.trans hf.2.symm, by rw [build_agree]; exact hf.1.trans hf.2.symm⟩
  · subst h
    exact ⟨rfl, rfl⟩
  · by_cases hi1 : i = j + 1
    · exact ⟨(key j i hi1).symm, by rw [build_agree]; exact (key j i hi1).symm⟩
    · have hf := far j i (by omega)
      exact ⟨hf.2.trans hf.1.symm, by rw [build_agree]; exact hf.2.trans hf.1.symm⟩

/-- Witness for the amended C3 at the uniform-mass chain `m = [2, 2]`,
`k = [5]`: the two opposite off-diagonal entries agree. -/
theorem C3_amended_witness :
    SymbolicMolecularChain.build_matrix [2, 2] [5] 0 1 =
      SymbolicMolecularChain.build_matrix [2, 2] [5] 1 0 :=
  (C3_amended_symmetric_iff_uniform_mass [2, 2] [5] 2 (by decide) 0 1).1

/-- Entry `(0,0)` of the CO₂ chain matrix. -/
lemma co2A_00 (m M k : ℚ) : co2A m M k 0 0 = k / m := by
  show SymbolicMolecularChain.build_matrix [m, M, m] [k, k] 0 0 = k / m
  rw [build_matrix_eq]
  norm_num [buildEntry, neg_div]

/-- Entry `(0,1)` of the CO₂ chain matrix. -/
lemma co2A_01 (m M k : ℚ) : co2A m M k 0 1 = -(k / m) := by
  show SymbolicMolecularChain.build_matrix [m, M, m] [k, k] 0 1 = -(k / m)
  rw [build_matrix_eq]
  norm_num [buildEntry, neg_div]

/-- Entry `(0,2)` of the CO₂ chain matrix. -/
lemma co2A_02 (m M k : ℚ) : co2A m M k 0 2 = 0 := by
  show SymbolicMolecularChain.build_matrix [m, M, m] [k, k] 0 2 = 0
  rw [build_matrix_eq]
  norm_num [buildEntry, neg_div]

/-- Entry `(1,0)` of the CO₂ chain matrix. -/
lemma co2A_10 (m M k : ℚ) : co2A m M k 1 0 = -(k / M) := by
  show SymbolicMolecularChain.build_matrix [m, M, m] [k, k] 1 0 = -(k / M)
  rw [build_matrix_eq]
  norm_num [buildEntry, neg_div]

/-- Entry `(1,1)` of the CO₂ chain matrix. -/
lemma co2A_11 (m M k : ℚ) : co2A m M k 1 1 = k / M + k / M := by
  show SymbolicMolecularChain.build_matrix [m, M, m] [k, k] 1 1 = k / M + k / M
  rw [build_matrix_eq]
  norm_num [buildEntry, neg_div]

/-- Entry `(1,2)` of the CO₂ chain matrix. -/
lemma co2A_12 (m M k : ℚ) : co2A m M k 1 2 = -(k / M) := by
  show SymbolicMolecularChain.build_matrix [m, M, m] [k, k] 1 2 = -(k / M)
  rw [build_matrix_eq]
  norm_num [buildEntry, neg_div]

/-- Entry `(2,0)` of the CO₂ chain matrix. -/
lemma co2A_20 (m M k : ℚ) : co2A m M k 2 0 = 0 := by
  show SymbolicMolecularChain.build_matrix [m, M, m] [k, k] 2 0 = 0
  rw [build_matrix_eq]
  norm_num [buildEntry, neg_div]

/-- Entry `(2,1)` of the CO₂ chain matrix. -/
lemma co2A_21 (m M k : ℚ) : co2A m M k 2 1 = -(k / m) := by
  show SymbolicMolecularChain.build_matrix [m, M, m] [k, k] 2 1 = -(k / m)
  rw [build_matrix_eq]
  norm_num [buildEntry, neg_div]

/-- Entry `(2,2)` of the CO₂ chain matrix. -/
lemma co2A_22 (m M k : ℚ) : co2A m M k 2 2 = k / m := by
  show SymbolicMolecularChain.build_matrix [m, M, m] [k, k] 2 2 = k / m
  rw [build_matrix_eq]
  norm_num [buildEntry, neg_div]

/-- The symbolic eigensolver's characteristic polynomial of the CO₂ chain
matrix factors as `-λ(λ - k/m)(λ - (k/m + 2k/M))`. -/
lemma co2A_charpoly (m M k lam : ℚ) :
    SymbolicEigenSolver.characteristic_polynomial (co2A m M k) lam =
      -(lam * (lam - k / m) * (lam - (k / m + 2 * k / M))) := by
  have s00 : (co2A m M k - lam • (1 : Matrix (Fin 3) (Fin 3) ℚ)) 0 0 = k / m - lam := by
    rw [Matrix.sub_apply, Matrix.smul_apply, co2A_00, Matrix.one_apply_eq, smul_eq_mul, mul_one]
  have s01 : (co2A m M k - lam • (1 : Matrix (Fin 3) (Fin 3) ℚ)) 0 1 = -(k / m) := by
    rw [Matrix.sub_apply, Matrix.smul_apply, co2A_01, Matrix.one_apply_ne (by decide),
      smul_eq_mul, mul_zero, sub_zero]
  have s02 : (co2A m M k - lam • (1 : Matrix (Fin 3) (Fin 3) ℚ)) 0 2 = 0 := by
    rw [Matrix.sub_apply, Matrix.smul_apply, co2A_02, Matrix.one_apply_ne (by decide),
      smul_eq_mul, mul_zero, sub_zero]
  have s10 : (co2A m M k - lam • (1 : Matrix (Fin 3) (Fin 3) ℚ)) 1 0 = -(k / M) := by
    rw [Matrix.sub_apply, Matrix.smul_apply, co2A_10, Matrix.one_apply_ne (by decide),
      smul_eq_mul, mul_zero, sub_zero]
  have s11 : (co2A m M k - lam • (1 : Matrix (Fin 3) (Fin 3) ℚ)) 1 1 =
      k / M + k / M - lam := by
    rw [Matrix.sub_apply, Matrix.smul_apply, co2A_11, Matrix.one_apply_eq, smul_eq_mul, mul_one]
  have s12 : (co2A m M k - lam • (1 : Matrix (Fin 3) (Fin 3) ℚ)) 1 2 = -(k / M) := by
    rw [Matrix.sub_apply, Matrix.smul_apply, co2A_12, Matrix.one_apply_ne (by decide),
      smul_eq_mul, mul_zero, sub_zero]
  have s20 : (co2A m M k - lam • (1 : Matrix (Fin 3) (Fin 3) ℚ)) 2 0 = 0 := by
    rw [Matrix.sub_apply, Matrix.smul_apply, co2A_20, Matrix.one_apply_ne (by decide),
      smul_eq_mul, mul_zero, sub_zero]
  have s21 : (co2A m M k - lam • (1 : Matrix (Fin 3) (Fin 3) ℚ)) 2 1 = -(k / m) := by
    rw [Matrix.sub_apply, Matrix.smul_apply, co2A_21, Matrix.one_apply_ne (by decide),
      smul_eq_mul, mul_zero, sub_zero]
  have s22 : (co2A m M k - lam • (1 : Matrix (Fin 3) (Fin 3) ℚ)) 2 2 = k / m - lam := by
    rw [Matrix.sub_apply, Matrix.smul_apply, co2A_22, Matrix.one_apply_eq, smul_eq_mul, mul_one]
  simp only [SymbolicEigenSolver.characteristic_polynomial]
  rw [Matrix.det_fin_three, s00, s01, s02, s10, s11, s12, s20, s21, s22]
  ring

/-- C5: parsing `"O=C=O"` with masses `{O: m, C: M}` and springs `{'=': k}`
yields atoms `[O, C, O]` and bonds `['=', '=']`, and the roots of the
symbolic eigensolver's characteristic polynomial of the resulting `3×3`
matrix are exactly `{0, k/m, k/m·(1 + 2m/M)}`. -/
theorem C5_co2_roundtrip (m M k : ℚ) (hm : m ≠ 0) (hM : M ≠ 0) :
    SymbolicMolecularChain.parse_structure (co2_spring k) "O=C=O".toList =
      (['O', 'C', 'O'], ['=', '=']) ∧
    (∀ lam : ℚ,
      SymbolicEigenSolver.characteristic_polynomial (co2A m M k) lam = 0 ↔
        (lam = 0 ∨ lam = k / m ∨ lam = k / m * (1 + 2 * m / M))) := by
  refine ⟨rfl, fun lam => ?_⟩
  rw [co2A_charpoly]
  have hab : k / m + 2 * k / M = k / m * (1 + 2 * m / M) := by
    field_simp
    ring
  simp only [neg_eq_zero, mul_eq_zero, sub_eq_zero, hab]
  tauto

/-- Witness for C5 at `m = 2, M = 3, k = 1`: `λ = 0` is a root of the
characteristic polynomial of the CO₂ chain matrix. -/
theorem C5_co2_roundtrip_witness :
    SymbolicEigenSolver.characteristic_polynomial (co2A 2 3 1) 0 = 0 := by
  have h := (C5_co2_roundtrip 2 3 1 (by norm_num) (by norm_num)).2 0
  exact h.mpr (Or.inl rfl)

/-- `[d[x] for x in keys]` raises `KeyError` at the first missing key. -/
lemma lookupMany_missing (d : Char → Option ℚ) (pre rest : List Char) (a : Char)
    (hpre : ∀ x ∈ pre, (d x).isSome) (ha : d a = none) :
    lookupMany d (pre ++ a :: rest) = .error (.keyError a) := by
  induction pre with
  | nil => simp [lookupMany, ha]
  | cons c cs ih =>
      have hc : (d c).isSome := hpre c (by simp)
      obtain ⟨v, hv⟩ := Option.isSome_iff_exists.mp hc
      have ih2 := ih (fun x hx => hpre x (by simp [hx]))
      simp [lookupMany, hv, ih2, Except.map]

/-- C7 counterexample: with springs `{'=': 1}` the structure `"O~C"`
(whose `'~'` bond is absent from the mapping) is parsed without any
error — the unknown bond is silently dropped and construction succeeds,
contrary to the claimed `UnknownBondError`; `build_matrix` on the resulting
chain then fails with a plain `IndexError` that names no symbol. -/
theorem C7_counterexample :
    SymbolicMolecularChain.parse_structure (co2_spring 1) ['O', '~', 'C'] = (['O', 'C'], []) ∧
    build_matrixE (co2_mass 16 12) (co2_spring 1) ['O', 'C'] [] = .error .indexError := by
  exact ⟨by decide, rfl⟩

/-- C7 amended: no `UnknownAtomError`/`UnknownBondError` exists.  An atom
symbol missing from `mass_dict` does not fail construction (the parser
never consults `mass_dict`); `build_matrix` then raises a `KeyError`
naming the first missing atom.  A bond character missing from
`spring_dict` raises nothing at all: the parser silently skips it (the
atom is kept, no bond is recorded), and the shortfall surfaces later only
as an `IndexError` inside `build_matrix`. -/
theorem C7_amended_unknown_symbols :
    (∀ (mass spring : Char → Option ℚ) (pre rest bonds : List Char) (a : Char),
      (∀ x ∈ pre, (mass x).isSome) → mass a = none →
      build_matrixE mass spring (pre ++ a :: rest) bonds = .error (.keyError a)) ∧
    (∀ (spring : Char → Option ℚ) (a b : Char) (s : List Char),
      a.isAlpha → spring b = none →
      SymbolicMolecularChain.parse_structure spring (a :: b :: s) =
        (a :: (SymbolicMolecularChain.parse_structure spring (b :: s)).1,
          (SymbolicMolecularChain.parse_structure spring (b :: s)).2)) := by
  constructor
  · intro mass spring pre rest bonds a hpre ha
    simp only [build_matrixE]
    rw [lookupMany_missing mass pre rest a hpre ha]
    rfl
  · intro spring a b s ha hb
    simp [SymbolicMolecularChain.parse_structure, ha, hb]

/-- Witness for the amended C7: building `"O"`+`"X"` with a mass dictionary
that lacks `'X'` raises `KeyError('X')`. -/
theorem C7_amended_unknown_symbols_witness :
    build_matrixE (co2_mass 16 12) (co2_spring 1) (['O'] ++ 'X' :: []) [] =
      .error (.keyError 'X') :=
  C7_amended_unknown_symbols.1 (co2_mass 16 12) (co2_spring 1) ['O'] [] [] 'X'
    (by decide) (by decide)

set_option maxHeartbeats 1000000 in
/-- C9: the two pipelines do share one data model — the parsers and matrix
builders of `SymbolicMolecularChain` and `MolecularChainNumeric` are the
same functions — but the numeric eigensolver does not match the symbolic
one: `np.linalg.eigh` reads only the lower triangle of the non-symmetric
matrix, so for `"O=C=O"` with masses `{O: 2, C: 3}`, spring `{'=': 1}` the
symbolic matrix is singular (`det = 0`, eigenvalue `0` exists) while the
matrix the numeric solver actually decomposes has `det = -1/72`, so `0` is
not among its eigenvalues and the claimed cross-validation fails. -/
theorem C9_pipelines_agree_eigh_mismatch :
    (∀ (spring : Char → Option ℚ) (s : List Char),
      MolecularChainNumeric.parse_structure spring s =
        SymbolicMolecularChain.parse_structure spring s) ∧
    MolecularChainNumeric.build_matrix = SymbolicMolecularChain.build_matrix ∧
    (co2A 2 3 1).det = 0 ∧
    (Matrix.of fun i j : Fin 3 =>
      NumericEigenSolver.eighInput
        (MolecularChainNumeric.chain_matrix (co2_mass 2 3) (co2_spring 1)
          "O=C=O".toList) i j).det = -(1 / 72) := by
  refine ⟨parse_agree, build_agree, ?_, ?_⟩
  · have h := co2A_charpoly 2 3 1 0
    simp only [SymbolicEigenSolver.characteristic_polynomial, zero_smul, sub_zero] at h
    rw [h]
    ring
  · have a10 : MolecularChainNumeric.chain_matrix (co2_mass 2 3) (co2_spring 1)
        "O=C=O".toList 1 0 = -((1 : ℚ) / 3) := co2A_10 2 3 1
    have a20 : MolecularChainNumeric.chain_matrix (co2_mass 2 3) (co2_spring 1)
        "O=C=O".toList 2 0 = 0 := co2A_20 2 3 1
    have a21 : MolecularChainNumeric.chain_matrix (co2_mass 2 3) (co2_spring 1)
        "O=C=O".toList 2 1 = -((1 : ℚ) / 2) := co2A_21 2 3 1
    have a00 : MolecularChainNumeric.chain_matrix (co2_mass 2 3) (co2_spring 1)
        "O=C=O".toList 0 0 = (1 : ℚ) / 2 := co2A_00 2 3 1
    have a11 : MolecularChainNumeric.chain_matrix (co2_mass 2 3) (co2_spring 1)
        "O=C=O".toList 1 1 = (1 : ℚ) / 3 + 1 / 3 := co2A_11 2 3 1
    have a22 : MolecularChainNumeric.chain_matrix (co2_mass 2 3) (co2_spring 1)
        "O=C=O".toList 2 2 = (1 : ℚ) / 2 := co2A_22 2 3 1
    have s00 : (Matrix.of fun i j : Fin 3 =>
        NumericEigenSolver.eighInput
          (MolecularChainNumeric.chain_matrix (co2_mass 2 3) (co2_spring 1)
            "O=C=O".toList) i j) 0 0 = (1 : ℚ) / 2 := by
      show (if (0 : ℕ) ≤ 0 then MolecularChainNumeric.chain_matrix (co2_mass 2 3)
          (co2_spring 1) "O=C=O".toList 0 0 else MolecularChainNumeric.chain_matrix
          (co2_mass 2 3) (co2_spring 1) "O=C=O".toList 0 0) = (1 : ℚ) / 2
      rw [if_pos (by omega)]
      exact a00
    have s01 : (Matrix.of fun i j : Fin 3 =>
        NumericEigenSolver.eighInput
          (MolecularChainNumeric.chain_matrix (co2_mass 2 3) (co2_spring 1)
            "O=C=O".toList) i j) 0 1 = -((1 : ℚ) / 3) := by
      show (if (1 : ℕ) ≤ 0 then MolecularChainNumeric.chain_matrix (co2_mass 2 3)
          (co2_spring 1) "O=C=O".toList 0 1 else MolecularChainNumeric.chain_matrix
          (co2_mass 2 3) (co2_spring 1) "O=C=O".toList 1 0) = -((1 : ℚ) / 3)
      rw [if_neg (by omega)]
      exact a10
    have s02 : (Matrix.of fun i j : Fin 3 =>
        NumericEigenSolver.eighInput
          (MolecularChainNumeric.chain_matrix (co2_mass 2 3) (co2_spring 1)
            "O=C=O".toList) i j) 0 2 = 0 := by
      show (if (2 : ℕ) ≤ 0 then MolecularChainNumeric.chain_matrix (co2_mass 2 3)
          (co2_spring 1) "O=C=O".toList 0 2 else MolecularChainNumeric.chain_matrix
          (co2_mass 2 3) (co2_spring 1) "O=C=O".toList 2 0) = 0
      rw [if_neg (by omega)]
      exact a20
    have s10 : (Matrix.of fun i j : Fin 3 =>
        NumericEigenSolver.eighInput
          (MolecularChainNumeric.chain_matrix (co2_mass 2 3) (co2_spring 1)
            "O=C=O".toList) i j) 1 0 = -((1 : ℚ) / 3) := by
      show (if (0 : ℕ) ≤ 1 then MolecularChainNumeric.chain_matrix (co2_mass 2 3)
          (co2_spring 1) "O=C=O".toList 1 0 else MolecularChainNumeric.chain_matrix
          (co2_mass 2 3) (co2_spring 1) "O=C=O".toList 0 1) = -((1 : ℚ) / 3)
      rw [if_pos (by omega)]
      exact a10
    have s11 : (Matrix.of fun i j : Fin 3 =>
        NumericEigenSolver.eighInput
          (MolecularChainNumeric.chain_matrix (co2_mass 2 3) (co2_spring 1)
            "O=C=O".toList) i j) 1 1 = (1 : ℚ) / 3 + 1 / 3 := by
      show (if (1 : ℕ) ≤ 1 then MolecularChainNumeric.chain_matrix (co2_mass 2 3)
          (co2_spring 1) "O=C=O".toList 1 1 else MolecularChainNumeric.chain_matrix
          (co2_mass 2 3) (co2_spring 1) "O=C=O".toList 1 1) = (1 : ℚ) / 3 + 1 / 3
      rw [if_pos (by omega)]
      exact a11
    have s12 : (Matrix.of fun i j : Fin 3 =>
        NumericEigenSolver.eighInput
          (MolecularChainNumeric.chain_matrix (co2_mass 2 3) (co2_spring 1)
            "O=C=O".toList) i j) 1 2 = -((1 : ℚ) / 2) := by
      show (if (2 : ℕ) ≤ 1 then MolecularChainNumeric.chain_matrix (co2_mass 2 3)
          (co2_spring 1) "O=C=O".toList 1 2 else MolecularChainNumeric.chain_matrix
          (co2_mass 2 3) (co2_spring 1) "O=C=O".toList 2 1) = -((1 : ℚ) / 2)
      rw [if_neg (by omega)]
      exact a21
    have s20 : (Matrix.of fun i j : Fin 3 =>
        NumericEigenSolver.eighInput
          (MolecularChainNumeric.chain_matrix (co2_mass 2 3) (co2_spring 1)
            "O=C=O".toList) i j) 2 0 = 0 := by
      show (if (0 : ℕ) ≤ 2 then MolecularChainNumeric.chain_matrix (co2_mass 2 3)
          (co2_spring 1) "O=C=O".toList 2 0 else MolecularChainNumeric.chain_matrix
          (co2_mass 2 3) (co2_spring 1) "O=C=O".toList 0 2) = 0
      rw [if_pos (by omega)]
      exact a20
    have s21 : (Matrix.of fun i j : Fin 3 =>
        NumericEigenSolver.eighInput
          (MolecularChainNumeric.chain_matrix (co2_mass 2 3) (co2_spring 1)
            "O=C=O".toList) i j) 2 1 = -((1 : ℚ) / 2) := by
      show (if (1 : ℕ) ≤ 2 then MolecularChainNumeric.chain_matrix (co2_mass 2 3)
          (co2_spring 1) "O=C=O".toList 2 1 else MolecularChainNumeric.chain_matrix
          (co2_mass 2 3) (co2_spring 1) "O=C=O".toList 1 2) = -((1 : ℚ) / 2)
      rw [if_pos (by omega)]
      exact a21
    have s22 : (Matrix.of fun i j : Fin 3 =>
        NumericEigenSolver.eighInput
          (MolecularChainNumeric.chain_matrix (co2_mass 2 3) (co2_spring 1)
            "O=C=O".toList) i j) 2 2 = (1 : ℚ) / 2 := by
      show (if (2 : ℕ) ≤ 2 then MolecularChainNumeric.chain_matrix (co2_mass 2 3)
          (co2_spring 1) "O=C=O".toList 2 2 else MolecularChainNumeric.chain_matrix
          (co2_mass 2 3) (co2_spring 1) "O=C=O".toList 2 2) = (1 : ℚ) / 2
      rw [if_pos (by omega)]
      exact a22
    rw [Matrix.det_fin_three, s00, s01, s02, s10, s11, s12, s20, s21, s22]
    norm_num
